import Mathlib

/-!
# Verification of the `tus_client` core (`src/lib.rs`)

A shallow embedding of the tus resumable-upload client. The embedding models:

* the HTTP transport as a pure function `HttpRequest → HttpResponse`
  (the client treats the transport as an opaque synchronous capability);
* a local file as its byte list `List Nat`; `File::read` on a regular file
  returns `min requested remaining` bytes from the current position, and
  `seek` sets the position;
* machine integers (`usize`) as `Nat` (the quantities involved are byte
  counts of a file, far below any overflow boundary, and Rust would panic on
  overflow in debug builds rather than wrap);
* Rust string operations (`to_lowercase`, `trim`, `split`, `parse::<usize>`,
  `to_string`, `starts_with`) as structurally recursive functions over the
  character list of a `String`, so that concrete instances evaluate;
* the request loop with an explicit fuel parameter; `none` as the first
  component of a result means the fuel ran out before the loop exited.

Every public operation also returns the list of requests it handed to the
transport, in order, so that claims about which requests are issued can be
stated.

The repository's `headers` and `http` modules are not part of the sources;
the definitions taken from them are marked `Modelled from the spec:` below.
-/

/-! ## List-based models of the Rust string operations -/

/-- Model of Rust `str::to_lowercase` (ASCII level), mapping
`char::to_lowercase` over the characters of the string. -/
def toLowerStr (s : String) : String := ⟨s.data.map Char.toLower⟩

/-- Model of Rust `str::trim`: drop whitespace from both ends. -/
def trimStr (s : String) : String :=
  ⟨((s.data.dropWhile Char.isWhitespace).reverse.dropWhile Char.isWhitespace).reverse⟩

/-- Model of Rust `str::split(',')` on the character list: the list of
comma-separated pieces (an empty string yields one empty piece, as in Rust). -/
def splitComma : List Char → List (List Char)
  | [] => [[]]
  | c :: rest =>
    match splitComma rest with
    | [] => [[c]]
    | p :: ps => if c = ',' then [] :: p :: ps else (c :: p) :: ps

/-- Model of Rust `str::split(',')` producing strings. -/
def splitCommaStr (s : String) : List String := (splitComma s.data).map fun l => ⟨l⟩

/-- Decimal digits of a natural number, most significant first; `fuel`
bounds the recursion depth and `n + 1` always suffices. -/
def natDigitsAux : Nat → Nat → List Char
  | 0, _ => []
  | fuel + 1, n =>
    if n < 10 then [Nat.digitChar n]
    else natDigitsAux fuel (n / 10) ++ [Nat.digitChar (n % 10)]

/-- Model of Rust `usize::to_string` (the `Display` impl): the decimal
representation of `n`. -/
def natToString (n : Nat) : String := ⟨natDigitsAux (n + 1) n⟩

/-- Model of Rust `str::parse::<usize>`: all characters must be decimal
digits (and there must be at least one); the value is the usual decimal
fold. Rust's `?` conversion turns a failure into `Error::ParsingError`. -/
def parse_usize (s : String) : Option Nat :=
  if s.data ≠ [] ∧ s.data.all Char.isDigit then
    some (s.data.foldl (fun m c => m * 10 + (c.toNat - 48)) 0)
  else none

/-- Model of Rust `str::starts_with(c : char)`. -/
def starts_with (s : String) (c : Char) : Bool :=
  match s.data with
  | [] => false
  | a :: _ => a == c

/-! ## Data model (from `src/lib.rs` and the missing `http`/`headers` modules) -/

/-- Modelled from the spec: the HTTP verbs used by the client (from the
missing `http` module). The probe is HEAD-equivalent, chunks are
PATCH-equivalent, the capability query is OPTIONS-equivalent, and
method-override mode substitutes POST. -/
inductive HttpMethod where
  | Head
  | Patch
  | Options
  | Post
deriving DecidableEq, Repr

/-- Modelled from the spec: the `Display` impl of `HttpMethod` from the
missing `http` module; spec section 8 shows the override header value
for a logical HEAD request is the string HEAD. -/
def HttpMethod.to_string : HttpMethod → String
  | .Head => "HEAD"
  | .Patch => "PATCH"
  | .Options => "OPTIONS"
  | .Post => "POST"

/-- Modelled from the spec: `Headers` from the missing `http` module, a
string-keyed map (a `HashMap<String, String>` in the source) represented
as an association list. -/
abbrev Headers := List (String × String)

/-- Map insertion (`HashMap::insert`): replaces any entry with the same key. -/
def Headers.insert (h : Headers) (k v : String) : Headers :=
  (k, v) :: h.filter fun p => p.1 ≠ k

/-- Case-insensitive header lookup (`HeaderMap::get_by_key`, lib.rs lines
280-286): find a key whose lowercase form equals `key` and return its value. -/
def Headers.get_by_key (h : Headers) (key : String) : Option String :=
  (h.find? fun p => toLowerStr p.1 == key).map Prod.snd

/-- Modelled from the spec: the lowercase header-name constants of the
missing `headers` module. `get_by_key` compares them against lowercased
response keys, so they are lowercase; spec section 6 lists the names. -/
def UPLOAD_OFFSET : String := "upload-offset"

/-- Modelled from the spec: see `UPLOAD_OFFSET`. -/
def UPLOAD_LENGTH : String := "upload-length"

/-- Modelled from the spec: see `UPLOAD_OFFSET`. -/
def TUS_VERSION : String := "tus-version"

/-- Modelled from the spec: see `UPLOAD_OFFSET`. -/
def TUS_EXTENSION : String := "tus-extension"

/-- Modelled from the spec: see `UPLOAD_OFFSET`. -/
def TUS_MAX_SIZE : String := "tus-max-size"

/-- Modelled from the spec: see `UPLOAD_OFFSET`. -/
def CONTENT_TYPE : String := "content-type"

/-- Modelled from the spec: see `UPLOAD_OFFSET`. -/
def X_HTTP_METHOD_OVERRIDE : String := "x-http-method-override"

/-- Modelled from the spec: `default_headers()` from the missing `http`
module; the spec says default headers include a protocol-version marker on
every request (the tus `Tus-Resumable` header). -/
def default_headers : Headers := [("Tus-Resumable", "1.0.0")]

/-- Modelled from the spec: `HttpRequest` from the missing `http` module;
the transport consumes a method, URL, optional body bytes and headers. -/
structure HttpRequest where
  method : HttpMethod
  url : String
  body : Option (List Nat)
  headers : Headers
deriving DecidableEq, Repr

/-- Modelled from the spec: `HttpResponse` from the missing `http` module;
the transport returns a status code and response headers. -/
structure HttpResponse where
  status_code : Nat
  headers : Headers
deriving DecidableEq, Repr

/-- The client (lib.rs lines 16-19); the transport handler is passed to
each operation as a function instead of being boxed in the structure. -/
structure Client where
  use_method_override : Bool
deriving DecidableEq, Repr

/-- `ProgressResponse` (lib.rs lines 217-220). -/
structure ProgressResponse where
  bytes_uploaded : Nat
  total_size : Option Nat
deriving DecidableEq, Repr

/-- `TusExtension` (lib.rs lines 230-236). -/
inductive TusExtension where
  | Creation
  | Expiration
  | Checksum
  | Termination
  | Concatenation
deriving DecidableEq, Repr

/-- `ServerInfo` (lib.rs lines 223-227). -/
structure ServerInfo where
  supported_versions : List String
  extensions : List TusExtension
  max_upload_size : Option Nat
deriving DecidableEq, Repr

/-- `Error` (lib.rs lines 254-262). `IoError` and `ParsingError` drop the
wrapped cause (`io::Error` / `ParseIntError`), which the code never
inspects. -/
inductive Error where
  | NotFoundError
  | BadResponse (detail : String)
  | IoError
  | ParsingError
  | UnequalSizeError
  | FileReadError
  | WrongUploadOffsetError
deriving DecidableEq, Repr

/-- `TusExtension::from_str` (lib.rs lines 241-250): trim, lowercase, and
match against the known extension vocabulary; `Option` models
`Result<Self, ()>`. -/
def TusExtension.from_str (s : String) : Option TusExtension :=
  let t := toLowerStr (trimStr s)
  if t = "creation" then some .Creation
  else if t = "expiration" then some .Expiration
  else if t = "checksum" then some .Checksum
  else if t = "termination" then some .Termination
  else if t = "concatenation" then some .Concatenation
  else none

/-- `DEFAULT_CHUNK_SIZE` (lib.rs line 14). -/
def DEFAULT_CHUNK_SIZE : Nat := 5 * 1024 * 1024

/-! ## Operations -/

/-- `Client::create_request` (lib.rs lines 188-213): default the headers,
and in method-override mode record the original verb in the override
header and substitute POST. -/
def create_request (c : Client) (method : HttpMethod) (url : String)
    (body : Option (List Nat)) (headers : Option Headers) : HttpRequest :=
  let headers := headers.getD []
  if c.use_method_override then
    { method := HttpMethod.Post, url := url, body := body,
      headers := Headers.insert headers X_HTTP_METHOD_OVERRIDE method.to_string }
  else
    { method := method, url := url, body := body, headers := headers }

/-- The response-interpretation part of `Client::get_progress` (lib.rs
lines 42-57): read the offset and length headers, fail with `NotFoundError`
on a 4xx status or a missing offset header, otherwise parse the offset. -/
def progress_of_response (response : HttpResponse) : Except Error ProgressResponse :=
  let bytes_uploaded := Headers.get_by_key response.headers UPLOAD_OFFSET
  let total_size := (Headers.get_by_key response.headers UPLOAD_LENGTH).bind parse_usize
  if starts_with (natToString response.status_code) '4' || bytes_uploaded.isNone then
    .error .NotFoundError
  else
    match bytes_uploaded with
    | none => .error .NotFoundError
    | some s =>
      match parse_usize s with
      | none => .error .ParsingError
      | some n => .ok { bytes_uploaded := n, total_size := total_size }

/-- `Client::get_progress` (lib.rs lines 37-58), also returning the list of
requests handed to the transport. -/
def get_progress (c : Client) (handler : HttpRequest → HttpResponse) (url : String) :
    Except Error ProgressResponse × List HttpRequest :=
  let req := create_request c HttpMethod.Head url none (some default_headers)
  (progress_of_response (handler req), [req])

/-- `create_upload_headers` (lib.rs lines 288-296): the default headers
plus the chunk content type and the current upload offset. -/
def create_upload_headers (progress : Nat) : Headers :=
  Headers.insert
    (Headers.insert default_headers CONTENT_TYPE "application/offset+octet-stream")
    UPLOAD_OFFSET (natToString progress)

/-- The inner chunk-filling loop of `upload_with_chunk_size` (lib.rs lines
86-99) for a regular file of length `file_len` read from position `pos`:
each iteration requests the window up to `min (bytes_loaded + 8000)
chunk_size` and `File::read` returns `min requested (file_len - pos)`
bytes. `fuel` bounds the iterations; `chunk_size + 1` always suffices
(`inner_loop_eq`). Returns the final `bytes_loaded`. -/
def inner_loop (chunk_size file_len : Nat) : Nat → Nat → Nat → Nat
  | 0, _, bytes_loaded => bytes_loaded
  | fuel + 1, pos, bytes_loaded =>
    let e := min (bytes_loaded + 8000) chunk_size
    let bytes_read := min (e - bytes_loaded) (file_len - pos)
    if bytes_read = 0 ∨ e = chunk_size then bytes_loaded + bytes_read
    else inner_loop chunk_size file_len fuel (pos + bytes_read) (bytes_loaded + bytes_read)

/-- The same inner chunk-filling loop (lib.rs lines 86-99) with the reads
left abstract, for claims that quantify over partial reads: `reads` is the
sequence of byte counts successive `File::read` calls deliver, each clamped
to the requested window size (a read returns between 0 and the requested
number of bytes). Returns `(bytes_loaded, last bytes_read, last end)` at
the break, or `none` if the loop would issue more reads than `reads`
provides. -/
def fill_chunk (chunk_size : Nat) : Nat → List Nat → Option (Nat × Nat × Nat)
  | _, [] => none
  | bytes_loaded, r :: rs =>
    let e := min (bytes_loaded + 8000) chunk_size
    let bytes_read := min r (e - bytes_loaded)
    if bytes_read = 0 ∨ e = chunk_size then some (bytes_loaded + bytes_read, bytes_read, e)
    else fill_chunk chunk_size (bytes_loaded + bytes_read) rs

/-- The chunk loop of `Client::upload_with_chunk_size` (lib.rs lines
80-141), entered with the file position and the acknowledged progress both
seeded from the probe. Returns the loop outcome (`none` when `fuel` runs
out) and the chunk requests handed to the transport, in order. -/
def upload_loop (c : Client) (handler : HttpRequest → HttpResponse) (url : String)
    (file : List Nat) (chunk_size : Nat) :
    Nat → Nat → Nat → Option (Except Error Unit) × List HttpRequest
  | _, _, 0 => (none, [])
  | pos, progress, fuel + 1 =>
    let file_len := file.length
    let bytes_loaded := inner_loop chunk_size file_len (chunk_size + 1) pos 0
    -- `buffer.is_empty()` (lib.rs line 100): the buffer is `vec![0; chunk_size]`
    -- and is never resized, so it is empty exactly when `chunk_size == 0`.
    if chunk_size = 0 then
      (some (.error .FileReadError), [])
    else
      -- `buffer[..bytes_loaded]` holds exactly the bytes read from the file
      -- positions `[pos, pos + bytes_loaded)`.
      let req := create_request c HttpMethod.Patch url
        (some ((file.drop pos).take bytes_loaded)) (some (create_upload_headers progress))
      let response := handler req
      if response.status_code = 409 then
        (some (.error .WrongUploadOffsetError), [req])
      else if response.status_code = 404 then
        (some (.error .NotFoundError), [req])
      else if response.status_code ≠ 204 then
        (some (.error (.BadResponse
          ("Expected response status code to be 204, but received "
            ++ natToString response.status_code))), [req])
      else
        match Headers.get_by_key response.headers UPLOAD_OFFSET with
        | none =>
          (some (.error (.BadResponse (UPLOAD_OFFSET ++ " header missing from response"))), [req])
        | some upload_offset =>
          match parse_usize upload_offset with
          | none => (some (.error .ParsingError), [req])
          | some new_progress =>
            if new_progress ≥ file_len then (some (.ok ()), [req])
            else
              let rest := upload_loop c handler url file chunk_size
                (pos + bytes_loaded) new_progress fuel
              (rest.1, req :: rest.2)

/-- `Client::upload_with_chunk_size` (lib.rs lines 64-144): probe the
progress, compare a declared total size against the file length, seek to
the acknowledged offset, and run the chunk loop. The file is given as its
byte list, so opening it and reading its metadata cannot fail. -/
def upload_with_chunk_size (c : Client) (handler : HttpRequest → HttpResponse)
    (url : String) (file : List Nat) (chunk_size fuel : Nat) :
    Option (Except Error Unit) × List HttpRequest :=
  let probe := get_progress c handler url
  match probe.1 with
  | .error e => (some (.error e), probe.2)
  | .ok progress =>
    let file_len := file.length
    if (match progress.total_size with
        | some total_size => file_len != total_size
        | none => false) then
      (some (.error .UnequalSizeError), probe.2)
    else
      let rest := upload_loop c handler url file chunk_size
        progress.bytes_uploaded progress.bytes_uploaded fuel
      (rest.1, probe.2 ++ rest.2)

/-- `Client::upload` (lib.rs lines 60-62). -/
def upload (c : Client) (handler : HttpRequest → HttpResponse)
    (url : String) (file : List Nat) (fuel : Nat) :
    Option (Except Error Unit) × List HttpRequest :=
  upload_with_chunk_size c handler url file DEFAULT_CHUNK_SIZE fuel

/-- `Client::get_server_info` (lib.rs lines 147-186). The first result
component is `none` exactly when the source would abort: the source calls
`.unwrap()` on the `Tus-Version` response header with no checked fallback,
so its absence on an accepted response is not converted to any `Error`
variant. -/
def get_server_info (c : Client) (handler : HttpRequest → HttpResponse) (url : String) :
    Option (Except Error ServerInfo) × List HttpRequest :=
  let req := create_request c HttpMethod.Options url none none
  let response := handler req
  if response.status_code ≠ 200 ∧ response.status_code ≠ 204 then
    (some (.error (.BadResponse
      ("Expected response status code to be 200 or 204, but received "
        ++ natToString response.status_code))), [req])
  else
    match Headers.get_by_key response.headers TUS_VERSION with
    | none => (none, [req])
    | some v =>
      let supported_versions := splitCommaStr v
      let extensions :=
        match Headers.get_by_key response.headers TUS_EXTENSION with
        | some ext => (splitCommaStr ext).filterMap TusExtension.from_str
        | none => []
      let max_upload_size := (Headers.get_by_key response.headers TUS_MAX_SIZE).bind parse_usize
      (some (.ok { supported_versions := supported_versions, extensions := extensions,
                   max_upload_size := max_upload_size }), [req])

/-- A fault-free server for an upload starting from acknowledged offset
`b0`: the probe succeeds with status 200 reporting `b0` bytes uploaded (and
no total size), and every chunk request is answered with status 204 and an
Upload-Offset header equal to the offset the request carried plus the
number of body bytes it sent. -/
def fault_free_handler (b0 : Nat) (req : HttpRequest) : HttpResponse :=
  if req.method = HttpMethod.Head then
    { status_code := 200, headers := [(UPLOAD_OFFSET, natToString b0)] }
  else
    let off := ((Headers.get_by_key req.headers UPLOAD_OFFSET).bind parse_usize).getD 0
    let len := (req.body.map List.length).getD 0
    { status_code := 204, headers := [(UPLOAD_OFFSET, natToString (off + len))] }

/-- The chunk request the loop body (lib.rs lines 104-109) sends when the
file position is `pos` and the running acknowledged offset is `prog`. -/
def chunk_request (c : Client) (url : String) (file : List Nat) (cs pos prog : Nat) :
    HttpRequest :=
  create_request c HttpMethod.Patch url
    (some ((file.drop pos).take (inner_loop cs file.length (cs + 1) pos 0)))
    (some (create_upload_headers prog))


/-! ## Theorems -/

/-! ### Round-trip: printing then parsing a `usize` is the identity -/

theorem digitChar_isDigit : ∀ d : Nat, d < 10 → (Nat.digitChar d).isDigit = true := by
  decide

theorem digitChar_toNat : ∀ d : Nat, d < 10 → (Nat.digitChar d).toNat - 48 = d := by
  decide

theorem natDigitsAux_spec : ∀ fuel n : Nat, n < fuel →
    natDigitsAux fuel n ≠ [] ∧
    (natDigitsAux fuel n).all Char.isDigit = true ∧
    ∀ a : Nat, (natDigitsAux fuel n).foldl (fun m c => m * 10 + (c.toNat - 48)) a
      = a * 10 ^ (natDigitsAux fuel n).length + n := by
  intro fuel
  induction fuel with
  | zero => intro n hn; omega
  | succ f ih =>
    intro n hn
    by_cases h : n < 10
    · simp only [natDigitsAux, if_pos h]
      refine ⟨by simp, by simp [digitChar_isDigit n h], ?_⟩
      intro a
      have := digitChar_toNat n h
      simp only [List.foldl_cons, List.foldl_nil, List.length_singleton, pow_one]
      omega
    · have hdiv : n / 10 < f := by omega
      obtain ⟨hne, hall, hfold⟩ := ih (n / 10) hdiv
      simp only [natDigitsAux, if_neg h]
      refine ⟨by simp, ?_, ?_⟩
      · simp only [List.all_append, hall, List.all_cons, List.all_nil,
          digitChar_isDigit (n % 10) (by omega), Bool.and_self]
      · intro a
        have hd := digitChar_toNat (n % 10) (by omega)
        simp only [List.foldl_append, List.foldl_cons, List.foldl_nil, hfold a,
          List.length_append, List.length_singleton, pow_succ]
        have : 10 ^ (natDigitsAux f (n / 10)).length * 10
            = 10 ^ (natDigitsAux f (n / 10)).length * 10 := rfl
        nlinarith [hd, Nat.div_add_mod n 10,
          Nat.one_le_iff_ne_zero.2 (pow_ne_zero (natDigitsAux f (n / 10)).length (by norm_num : (10:ℕ) ≠ 0))]

theorem parse_natToString (n : Nat) : parse_usize (natToString n) = some n := by
  obtain ⟨hne, hall, hfold⟩ := natDigitsAux_spec (n + 1) n (by omega)
  show parse_usize ⟨natDigitsAux (n + 1) n⟩ = some n
  unfold parse_usize
  rw [if_pos ⟨hne, hall⟩]
  rw [hfold 0]
  simp

/-! ## Basic lemmas -/

theorem inner_loop_eq : ∀ (fuel chunk_size file_len pos bytes_loaded : Nat),
    chunk_size - bytes_loaded < fuel →
    inner_loop chunk_size file_len fuel pos bytes_loaded
      = bytes_loaded + min (chunk_size - bytes_loaded) (file_len - pos) := by
  intro fuel
  induction fuel with
  | zero => intro cs L pos bl h; omega
  | succ f ih =>
    intro cs L pos bl h
    simp only [inner_loop]
    split
    · omega
    · rw [ih]
      · omega
      · omega

/-- With the canonical fuel, the inner loop loads `min chunk_size
(file_len - pos)` bytes: the whole chunk, or what remains of the file. -/
theorem inner_loop_min (chunk_size file_len pos : Nat) :
    inner_loop chunk_size file_len (chunk_size + 1) pos 0
      = min chunk_size (file_len - pos) := by
  rw [inner_loop_eq (chunk_size + 1) chunk_size file_len pos 0 (by omega)]
  omega

theorem get_by_key_upload_offset_single (v : String) :
    Headers.get_by_key [(UPLOAD_OFFSET, v)] UPLOAD_OFFSET = some v := rfl

theorem get_by_key_upload_length_single (v : String) :
    Headers.get_by_key [(UPLOAD_OFFSET, v)] UPLOAD_LENGTH = none := rfl

theorem get_upload_offset_create (p : Nat) :
    Headers.get_by_key (create_upload_headers p) UPLOAD_OFFSET = some (natToString p) := rfl

theorem get_content_type_create (p : Nat) :
    Headers.get_by_key (create_upload_headers p) CONTENT_TYPE
      = some "application/offset+octet-stream" := rfl

theorem create_request_no_override (m : HttpMethod) (url : String)
    (body : Option (List Nat)) (hs : Headers) :
    create_request ⟨false⟩ m url body (some hs)
      = { method := m, url := url, body := body, headers := hs } := rfl

/-- The fault-free server's response to a chunk request carrying offset `p`
and a `ch`-byte body: status 204, acknowledging `p + ch.length`. -/
theorem ffh_patch (b0 p : Nat) (url : String) (ch : List Nat) :
    fault_free_handler b0
        { method := HttpMethod.Patch, url := url, body := some ch,
          headers := create_upload_headers p }
      = { status_code := 204, headers := [(UPLOAD_OFFSET, natToString (p + ch.length))] } := by
  unfold fault_free_handler
  rw [if_neg (by simp)]
  simp only [get_upload_offset_create, Option.some_bind, parse_natToString,
    Option.getD_some, Option.map_some']

/-- The fault-free server's probe response parses to `b0` bytes uploaded
and no total size. -/
theorem ffh_probe (b0 : Nat) :
    progress_of_response { status_code := 200, headers := [(UPLOAD_OFFSET, natToString b0)] }
      = .ok { bytes_uploaded := b0, total_size := none } := by
  unfold progress_of_response
  simp only [get_by_key_upload_offset_single, get_by_key_upload_length_single,
    Option.isNone_some, Bool.or_false, Option.bind_none]
  rw [if_neg (by decide)]
  rw [parse_natToString]
  rfl

/-- Running the chunk loop against the fault-free server from any position
`pos ≤ file.length` (with position and acknowledged progress in sync, as
the seek in `upload_with_chunk_size` establishes) succeeds, and the
server's response to the last chunk request acknowledges exactly
`file.length` bytes. -/
theorem upload_loop_fault_free (b0 : Nat) (url : String) (file : List Nat) (cs : Nat)
    (hcs : 0 < cs) :
    ∀ fuel pos, pos ≤ file.length → file.length - pos < fuel →
    ∃ (init : List HttpRequest) (r : HttpRequest),
      upload_loop ⟨false⟩ (fault_free_handler b0) url file cs pos pos fuel
        = (some (Except.ok ()), init ++ [r]) ∧
      Headers.get_by_key (fault_free_handler b0 r).headers UPLOAD_OFFSET
        = some (natToString file.length) := by
  intro fuel
  induction fuel with
  | zero => intro pos h1 h2; omega
  | succ f ih =>
    intro pos hpos hfuel
    have hchlen : ((file.drop pos).take (min cs (file.length - pos))).length
        = min cs (file.length - pos) := by
      simp only [List.length_take, List.length_drop]
      omega
    simp only [upload_loop, inner_loop_min]
    rw [if_neg (by omega)]
    rw [create_request_no_override]
    rw [ffh_patch, hchlen]
    rw [if_neg (by simp), if_neg (by simp), if_neg (by simp)]
    simp only [get_by_key_upload_offset_single, parse_natToString]
    by_cases hge : pos + min cs (file.length - pos) ≥ file.length
    · rw [if_pos hge]
      refine ⟨[], _, rfl, ?_⟩
      rw [ffh_patch, hchlen, get_by_key_upload_offset_single]
      have heq2 : pos + min cs (file.length - pos) = file.length := by omega
      rw [heq2]
    · rw [if_neg hge]
      obtain ⟨init, r, heq, hr⟩ := ih (pos + min cs (file.length - pos)) (by omega) (by omega)
      rw [heq]
      refine ⟨create_request ⟨false⟩ HttpMethod.Patch url
        (some ((file.drop pos).take (min cs (file.length - pos))))
        (some (create_upload_headers pos)) :: init, r, ?_, hr⟩
      simp [create_request_no_override]

/-- With a positive chunk size, each pass of the chunk loop hands the
transport the chunk request for the current position and offset first. -/
theorem upload_loop_trace_cons (c : Client) (handler : HttpRequest → HttpResponse)
    (url : String) (file : List Nat) (cs pos prog fuel : Nat) (hcs : cs ≠ 0) :
    ∃ rest, (upload_loop c handler url file cs pos prog (fuel + 1)).2
      = chunk_request c url file cs pos prog :: rest := by
  simp only [upload_loop, chunk_request]
  rw [if_neg hcs]
  split
  · exact ⟨[], rfl⟩
  · split
    · exact ⟨[], rfl⟩
    · split
      · exact ⟨[], rfl⟩
      · split
        · exact ⟨[], rfl⟩
        · split
          · exact ⟨[], rfl⟩
          · split
            · exact ⟨[], rfl⟩
            · exact ⟨_, rfl⟩

/-- Every request the chunk loop hands to the transport is a chunk request
for some position and some offset. -/
theorem upload_loop_trace_shape (c : Client) (handler : HttpRequest → HttpResponse)
    (url : String) (file : List Nat) (cs : Nat) :
    ∀ fuel pos prog, ∀ r ∈ (upload_loop c handler url file cs pos prog fuel).2,
      ∃ p q, r = chunk_request c url file cs p q := by
  intro fuel
  induction fuel with
  | zero => intro pos prog r hr; simp [upload_loop] at hr
  | succ f ih =>
    intro pos prog r hr
    simp only [upload_loop, chunk_request] at hr ⊢
    by_cases hcs : cs = 0
    · rw [if_pos hcs] at hr
      simp at hr
    · rw [if_neg hcs] at hr
      split at hr
      · simp at hr; exact ⟨pos, prog, hr⟩
      · split at hr
        · simp at hr; exact ⟨pos, prog, hr⟩
        · split at hr
          · simp at hr; exact ⟨pos, prog, hr⟩
          · split at hr
            · simp at hr; exact ⟨pos, prog, hr⟩
            · split at hr
              · simp at hr; exact ⟨pos, prog, hr⟩
              · split at hr
                · simp at hr; exact ⟨pos, prog, hr⟩
                · simp only [List.mem_cons] at hr
                  rcases hr with hr | hr
                  · exact ⟨pos, prog, hr⟩
                  · exact ih _ _ r hr

/-- The chunk loop never produces `FileReadError` when the chunk size is
positive: the emptiness check inspects the preallocated buffer, whose
length is the chunk size. -/
theorem upload_loop_no_file_read (c : Client) (handler : HttpRequest → HttpResponse)
    (url : String) (file : List Nat) (cs : Nat) (hcs : cs ≠ 0) :
    ∀ fuel pos prog,
      (upload_loop c handler url file cs pos prog fuel).1
        ≠ some (Except.error Error.FileReadError) := by
  intro fuel
  induction fuel with
  | zero => intro pos prog h; simp [upload_loop] at h
  | succ f ih =>
    intro pos prog h
    simp only [upload_loop] at h
    rw [if_neg hcs] at h
    split at h
    · simp at h
    · split at h
      · simp at h
      · split at h
        · simp at h
        · split at h
          · simp at h
          · split at h
            · simp at h
            · split at h
              · simp at h
              · exact ih _ _ h

/-- `progress_of_response` never produces `FileReadError`. -/
theorem progress_of_response_no_file_read (r : HttpResponse) :
    progress_of_response r ≠ Except.error Error.FileReadError := by
  simp only [progress_of_response]
  split
  · simp
  · split
    · simp
    · split
      · simp
      · simp

/-- Whenever the abstract-reads chunk loop breaks, the loaded byte count
never exceeds the chunk size, and the break was taken because the last
read returned zero bytes or because the read window's end had reached the
chunk size. -/
theorem fill_chunk_stop (cs : Nat) :
    ∀ (reads : List Nat) (bl : Nat), bl ≤ cs →
    ∀ res, fill_chunk cs bl reads = some res →
      res.1 ≤ cs ∧ (res.2.1 = 0 ∨ res.2.2 = cs) := by
  intro reads
  induction reads with
  | nil => intro bl hbl res h; simp [fill_chunk] at h
  | cons r rs ih =>
    intro bl hbl res h
    simp only [fill_chunk] at h
    split at h
    · obtain rfl : (bl + min r (min (bl + 8000) cs - bl), min r (min (bl + 8000) cs - bl),
        min (bl + 8000) cs) = res := by injection h
      constructor
      · simp only
        omega
      · simp only
        omega
    · exact ih (bl + min r (min (bl + 8000) cs - bl)) (by omega) res h

/-- C1: for every local file `F` and every chunk size `C > 0`, a single
call to `upload_with_chunk_size` against a fault-free server (the probe
succeeds, and every PATCH is answered with status 204 and an Upload-Offset
header equal to the previous offset plus the number of chunk bytes sent)
returns `Ok` and terminates with the final acknowledged offset — the
offset in the server's response to the last chunk request — equal to
`length F`. (A fault-free server's recorded offset `b0` for this upload
does not exceed the file's length.) -/
theorem upload_fault_free_completes (url : String) (file : List Nat) (cs b0 : Nat)
    (hcs : 0 < cs) (hb0 : b0 ≤ file.length) :
    ∃ (init : List HttpRequest) (r : HttpRequest),
      upload_with_chunk_size ⟨false⟩ (fault_free_handler b0) url file cs (file.length + 1)
        = (some (Except.ok ()),
           create_request ⟨false⟩ HttpMethod.Head url none (some default_headers)
             :: (init ++ [r])) ∧
      Headers.get_by_key (fault_free_handler b0 r).headers UPLOAD_OFFSET
        = some (natToString file.length) := by
  obtain ⟨init, r, heq, hr⟩ :=
    upload_loop_fault_free b0 url file cs hcs (file.length + 1) b0 hb0 (by omega)
  refine ⟨init, r, ?_, hr⟩
  have hprobe : fault_free_handler b0
      (create_request ⟨false⟩ HttpMethod.Head url none (some default_headers))
      = { status_code := 200, headers := [(UPLOAD_OFFSET, natToString b0)] } := rfl
  simp only [upload_with_chunk_size, get_progress, hprobe, ffh_probe]
  rw [heq]
  simp

/-- C1 witness: a three-byte file uploaded in chunks of two from offset
zero. -/
theorem upload_fault_free_completes_witness :
    ∃ (init : List HttpRequest) (r : HttpRequest),
      upload_with_chunk_size ⟨false⟩ (fault_free_handler 0) "u" [7, 7, 7] 2 4
        = (some (Except.ok ()),
           create_request ⟨false⟩ HttpMethod.Head "u" none (some default_headers)
             :: (init ++ [r])) ∧
      Headers.get_by_key (fault_free_handler 0 r).headers UPLOAD_OFFSET
        = some (natToString 3) :=
  upload_fault_free_completes "u" [7, 7, 7] 2 0 (by decide) (by decide)

/-- C2: whenever the probe reports a total size that differs from the
local file's byte length, `upload_with_chunk_size` fails with
`UnequalSizeError` and the transport receives only the single HEAD
probe — no chunk request is issued. -/
theorem upload_unequal_size (c : Client) (handler : HttpRequest → HttpResponse)
    (url : String) (file : List Nat) (cs fuel : Nat) (p : ProgressResponse) (ts : Nat)
    (hp : progress_of_response
        (handler (create_request c HttpMethod.Head url none (some default_headers)))
        = Except.ok p)
    (hts : p.total_size = some ts) (hne : file.length ≠ ts) :
    upload_with_chunk_size c handler url file cs fuel
      = (some (Except.error Error.UnequalSizeError),
         [create_request c HttpMethod.Head url none (some default_headers)]) := by
  simp only [upload_with_chunk_size, get_progress, hp, hts]
  rw [if_pos (by simp [hne])]

/-- C2 witness: probe declares a 100-byte total for a one-byte file. -/
theorem upload_unequal_size_witness :
    upload_with_chunk_size ⟨false⟩
        (fun _ => { status_code := 200,
                    headers := [("upload-offset", "0"), ("upload-length", "100")] })
        "u" [5] 3 7
      = (some (Except.error Error.UnequalSizeError),
         [create_request ⟨false⟩ HttpMethod.Head "u" none (some default_headers)]) :=
  upload_unequal_size ⟨false⟩
    (fun _ => { status_code := 200,
                headers := [("upload-offset", "0"), ("upload-length", "100")] })
    "u" [5] 3 7 { bytes_uploaded := 0, total_size := some 100 } 100
    (by rfl) (by rfl) (by decide)

/-- C3: the probe interpretation fails with `NotFoundError` whenever the
response status's decimal representation begins with the digit 4 or the
upload-offset header is absent; and a response with status 200 and
upload-offset header value 120 yields a `ProgressResponse` with
`bytes_uploaded = 120`. -/
theorem get_progress_response_semantics :
    (∀ r : HttpResponse,
        starts_with (natToString r.status_code) '4' = true
          ∨ Headers.get_by_key r.headers UPLOAD_OFFSET = none →
        progress_of_response r = Except.error Error.NotFoundError)
    ∧ progress_of_response
        { status_code := 200, headers := [("upload-offset", "120")] }
      = Except.ok { bytes_uploaded := 120, total_size := none } := by
  constructor
  · intro r hr
    simp only [progress_of_response]
    have hc : (starts_with (natToString r.status_code) '4'
        || (Headers.get_by_key r.headers UPLOAD_OFFSET).isNone) = true := by
      rcases hr with h | h
      · simp [h]
      · simp [h]
    rw [if_pos hc]
  · rfl

/-- C3 witness: a 404 response with no headers is interpreted as
`NotFoundError`. -/
theorem get_progress_response_semantics_witness :
    progress_of_response { status_code := 404, headers := [] }
      = Except.error Error.NotFoundError :=
  get_progress_response_semantics.1 { status_code := 404, headers := [] }
    (Or.inl (by decide))

/-- C4: in every iteration of the upload loop the chunk is sent as a PATCH
request to the target URL whose headers are the protocol defaults plus the
chunk content type and Upload-Offset set to the running offset before the
chunk — initially the probe's bytes-uploaded value, thereafter the offset
carried by the server's previous 204 response — and whose body is exactly
the chunk bytes read from the current file position. -/
theorem chunk_request_shaping (handler : HttpRequest → HttpResponse) (url : String)
    (file : List Nat) (cs pos prog fuel : Nat) (hcs : cs ≠ 0) :
    ((upload_loop ⟨false⟩ handler url file cs pos prog (fuel + 1)).2.head?
        = some (chunk_request ⟨false⟩ url file cs pos prog))
    ∧ (chunk_request ⟨false⟩ url file cs pos prog).method = HttpMethod.Patch
    ∧ (chunk_request ⟨false⟩ url file cs pos prog).url = url
    ∧ (chunk_request ⟨false⟩ url file cs pos prog).body
        = some ((file.drop pos).take (inner_loop cs file.length (cs + 1) pos 0))
    ∧ (chunk_request ⟨false⟩ url file cs pos prog).headers
        = Headers.insert
            (Headers.insert default_headers CONTENT_TYPE "application/offset+octet-stream")
            UPLOAD_OFFSET (natToString prog)
    ∧ Headers.get_by_key (chunk_request ⟨false⟩ url file cs pos prog).headers CONTENT_TYPE
        = some "application/offset+octet-stream"
    ∧ Headers.get_by_key (chunk_request ⟨false⟩ url file cs pos prog).headers UPLOAD_OFFSET
        = some (natToString prog)
    ∧ (∀ p : ProgressResponse,
        progress_of_response
            (handler (create_request ⟨false⟩ HttpMethod.Head url none (some default_headers)))
          = Except.ok p →
        (match p.total_size with
         | some total_size => file.length != total_size
         | none => false) = false →
        (upload_with_chunk_size ⟨false⟩ handler url file cs (fuel + 1)).2.tail.head?
          = some (chunk_request ⟨false⟩ url file cs p.bytes_uploaded p.bytes_uploaded))
    ∧ (∀ off n,
        (handler (chunk_request ⟨false⟩ url file cs pos prog)).status_code = 204 →
        Headers.get_by_key (handler (chunk_request ⟨false⟩ url file cs pos prog)).headers
            UPLOAD_OFFSET = some off →
        parse_usize off = some n → n < file.length →
        (upload_loop ⟨false⟩ handler url file cs pos prog (fuel + 1)).2
          = chunk_request ⟨false⟩ url file cs pos prog
            :: (upload_loop ⟨false⟩ handler url file cs
                  (pos + inner_loop cs file.length (cs + 1) pos 0) n fuel).2)
    ∧ (∀ r ∈ (upload_loop ⟨false⟩ handler url file cs pos prog (fuel + 1)).2,
        ∃ p q, r = chunk_request ⟨false⟩ url file cs p q) := by
  refine ⟨?_, rfl, rfl, rfl, rfl, rfl, rfl, ?_, ?_, ?_⟩
  · obtain ⟨rest, h⟩ := upload_loop_trace_cons ⟨false⟩ handler url file cs pos prog fuel hcs
    rw [h]
    rfl
  · intro p hp hcond
    simp only [upload_with_chunk_size, get_progress, hp]
    rw [if_neg (by simp [hcond])]
    obtain ⟨rest, h⟩ :=
      upload_loop_trace_cons ⟨false⟩ handler url file cs p.bytes_uploaded p.bytes_uploaded fuel hcs
    rw [h]
    rfl
  · intro off n h204 hoff hparse hlt
    simp only [chunk_request] at h204 hoff ⊢
    simp only [upload_loop]
    rw [if_neg hcs]
    simp only [h204, hoff, hparse]
    rw [if_neg (by decide : ¬ (204 = 409)), if_neg (by decide : ¬ (204 = 404)),
      if_neg (by decide : ¬ (204 ≠ 204))]
    rw [if_neg (show ¬ n ≥ file.length by omega)]
  · exact upload_loop_trace_shape ⟨false⟩ handler url file cs (fuel + 1) pos prog

/-- C4 witness: the first chunk request for a one-byte file at position
zero with offset zero. -/
theorem chunk_request_shaping_witness :
    (upload_loop ⟨false⟩ (fun _ => { status_code := 204, headers := [("upload-offset", "1")] })
        "u" [3] 2 0 0 1).2.head?
      = some (chunk_request ⟨false⟩ "u" [3] 2 0 0) :=
  (chunk_request_shaping
    (fun _ => { status_code := 204, headers := [("upload-offset", "1")] })
    "u" [3] 2 0 0 0 (by decide)).1

/-- C5 evaluated at the failing input: with chunk size `2 > 0` and an
empty file, the chunk read loads zero bytes, yet the call does not fail
with `FileReadError`: it sends a zero-length PATCH for the empty chunk and
returns `Ok` once the server acknowledges it. The `buffer.is_empty()`
check (lib.rs line 100) inspects the preallocated `vec![0; chunk_size]`,
never the number of bytes read, so it cannot fire for a positive chunk
size. -/
theorem upload_empty_read_sends_patch :
    upload_with_chunk_size ⟨false⟩ (fault_free_handler 0) "u" [] 2 1
      = (some (Except.ok ()),
         [create_request ⟨false⟩ HttpMethod.Head "u" none (some default_headers),
          create_request ⟨false⟩ HttpMethod.Patch "u" (some [])
            (some (create_upload_headers 0))]) := by
  rfl

/-- C6 counterexample: with chunk size 2 and a single read delivering 1 of
the 2 requested bytes, the inner loop breaks on its first iteration
because the read window's end equals the chunk size, with the chunk buffer
holding 1 ≠ 2 bytes even though no read returned zero bytes (the loop
breaks at the first zero read, so the middle component of the result being
1 means no zero read occurred). -/
theorem fill_chunk_partial_read_cex :
    fill_chunk 2 0 [1] = some (1, 1, 2) ∧ (1 : Nat) ≠ 2 ∧ (1 : Nat) ≠ 0 := by
  decide

/-- C6 amended: for every chunk-size and every sequence of partial reads,
the inner chunk-filling loop stops only when the read window's end has
reached the chunk size or some read returned zero bytes (not necessarily
with a full buffer), and the chunk sent never exceeds the chunk size. -/
theorem fill_chunk_stop_condition (cs : Nat) (reads : List Nat) (res : Nat × Nat × Nat)
    (h : fill_chunk cs 0 reads = some res) :
    res.1 ≤ cs ∧ (res.2.1 = 0 ∨ res.2.2 = cs) :=
  fill_chunk_stop cs reads 0 (Nat.zero_le cs) res h

/-- C6 witness: the partial-read break satisfies the amended condition. -/
theorem fill_chunk_stop_condition_witness :
    (1 : Nat) ≤ 2 ∧ ((1 : Nat) = 0 ∨ (2 : Nat) = 2) :=
  fill_chunk_stop_condition 2 [1] (1, 1, 2) (by decide)

/-- C7 counterexample: with method-override enabled, the progress probe is
NOT exempt from rewriting: the request handed to the transport carries the
POST verb (not HEAD) plus the override header recording HEAD. -/
theorem probe_override_cex :
    (get_progress ⟨true⟩ (fun _ => { status_code := 404, headers := [] }) "u").2
      = [{ method := HttpMethod.Post, url := "u", body := none,
           headers := [("x-http-method-override", "HEAD"), ("Tus-Resumable", "1.0.0")] }]
    ∧ HttpMethod.Post ≠ HttpMethod.Head := by
  decide

/-- C7 amended: under method-override mode the HEAD probe is rewritten
like every other request — sent as POST with the override header set to
HEAD (spec section 8's wire-level expectation) — and the response
interpretation is unchanged. -/
theorem probe_override_amended (c : Client) (handler : HttpRequest → HttpResponse)
    (url : String) (h : c.use_method_override = true) :
    (get_progress c handler url).2
      = [{ method := HttpMethod.Post, url := url, body := none,
           headers := Headers.insert default_headers X_HTTP_METHOD_OVERRIDE "HEAD" }]
    ∧ (get_progress c handler url).1
      = progress_of_response (handler
          { method := HttpMethod.Post, url := url, body := none,
            headers := Headers.insert default_headers X_HTTP_METHOD_OVERRIDE "HEAD" }) := by
  have hreq : create_request c HttpMethod.Head url none (some default_headers)
      = { method := HttpMethod.Post, url := url, body := none,
          headers := Headers.insert default_headers X_HTTP_METHOD_OVERRIDE "HEAD" } := by
    simp [create_request, h, HttpMethod.to_string]
  exact ⟨by simp [get_progress, hreq], by simp [get_progress, hreq]⟩

/-- C7 witness: a concrete override-mode probe. -/
theorem probe_override_amended_witness :
    (get_progress ⟨true⟩ (fun _ => { status_code := 404, headers := [] }) "u").2
      = [{ method := HttpMethod.Post, url := "u", body := none,
           headers := Headers.insert default_headers X_HTTP_METHOD_OVERRIDE "HEAD" }] :=
  (probe_override_amended ⟨true⟩ (fun _ => { status_code := 404, headers := [] }) "u" rfl).1

/-- C8: `get_server_info` trusts the protocol-version header on accepted
responses: on a 200/204 response with the header absent the source unwraps
`None` and aborts — modelled as the `none` outcome, distinct from every
`Error` variant — while whenever the header is present, or the status is
not accepted, the operation returns a value or a typed error. -/
theorem server_info_version_unwrap (c : Client) (handler : HttpRequest → HttpResponse)
    (url : String) :
    (((handler (create_request c HttpMethod.Options url none none)).status_code = 200
        ∨ (handler (create_request c HttpMethod.Options url none none)).status_code = 204) →
      Headers.get_by_key
          (handler (create_request c HttpMethod.Options url none none)).headers TUS_VERSION
        = none →
      (get_server_info c handler url).1 = none)
    ∧ (∀ v, Headers.get_by_key
          (handler (create_request c HttpMethod.Options url none none)).headers TUS_VERSION
        = some v →
        ∃ out, (get_server_info c handler url).1 = some out)
    ∧ ((handler (create_request c HttpMethod.Options url none none)).status_code ≠ 200 →
        (handler (create_request c HttpMethod.Options url none none)).status_code ≠ 204 →
        ∃ d, (get_server_info c handler url).1
          = some (Except.error (Error.BadResponse d))) := by
  refine ⟨?_, ?_, ?_⟩
  · intro hs hv
    simp only [get_server_info]
    rw [if_neg (by rcases hs with h | h <;> simp [h])]
    rw [hv]
  · intro v hv
    by_cases hbad : (handler (create_request c HttpMethod.Options url none none)).status_code ≠ 200
        ∧ (handler (create_request c HttpMethod.Options url none none)).status_code ≠ 204
    · simp only [get_server_info]
      rw [if_pos hbad]
      exact ⟨_, rfl⟩
    · simp only [get_server_info]
      rw [if_neg hbad, hv]
      exact ⟨_, rfl⟩
  · intro h1 h2
    simp only [get_server_info]
    rw [if_pos ⟨h1, h2⟩]
    exact ⟨_, rfl⟩

/-- C8 witness: a 200 response with no headers at all makes the operation
abort rather than return an error. -/
theorem server_info_version_unwrap_witness :
    (get_server_info ⟨false⟩ (fun _ => { status_code := 200, headers := [] }) "u").1 = none :=
  (server_info_version_unwrap ⟨false⟩ (fun _ => { status_code := 200, headers := [] }) "u").1
    (Or.inl rfl) rfl

/-- C9: on an accepted response, the extensions header value
creation,bogus,checksum parses to exactly {Creation, Checksum} (tokens
matched case-insensitively against the known vocabulary, unrecognized
tokens dropped), and the version header value 1.0.0,0.2.2 parses to the
two-element list in order. -/
theorem server_info_parsing :
    get_server_info ⟨false⟩
        (fun _ => { status_code := 200,
                    headers := [("Tus-Extension", "creation,bogus,checksum"),
                                ("Tus-Version", "1.0.0,0.2.2")] }) "u"
      = (some (Except.ok
          { supported_versions := ["1.0.0", "0.2.2"],
            extensions := [TusExtension.Creation, TusExtension.Checksum],
            max_upload_size := none }),
         [{ method := HttpMethod.Options, url := "u", body := none, headers := [] }]) := by
  rfl

/-- C10: the emptiness check guarding `FileReadError` inspects the
preallocated chunk buffer, not the bytes read: (a) with chunk size 0 every
call that reaches the chunk loop returns `FileReadError`; (b) with a
positive chunk size the call never returns `FileReadError`; (c) with a
positive chunk size, a chunk read that loads zero bytes (position at or
past end of file) results in a zero-length PATCH request being handed to
the transport instead of an error. -/
theorem file_read_guard_checks_buffer (c : Client) (handler : HttpRequest → HttpResponse)
    (url : String) (file : List Nat) :
    (∀ (p : ProgressResponse) (fuel : Nat),
        progress_of_response
            (handler (create_request c HttpMethod.Head url none (some default_headers)))
          = Except.ok p →
        (match p.total_size with
         | some total_size => file.length != total_size
         | none => false) = false →
        (upload_with_chunk_size c handler url file 0 (fuel + 1)).1
          = some (Except.error Error.FileReadError))
    ∧ (∀ cs fuel, 0 < cs →
        (upload_with_chunk_size c handler url file cs fuel).1
          ≠ some (Except.error Error.FileReadError))
    ∧ (∀ cs pos prog fuel, 0 < cs → file.length ≤ pos →
        (upload_loop c handler url file cs pos prog (fuel + 1)).2.head?
          = some (create_request c HttpMethod.Patch url (some [])
              (some (create_upload_headers prog)))) := by
  refine ⟨?_, ?_, ?_⟩
  · intro p fuel hp hcond
    simp only [upload_with_chunk_size, get_progress, hp]
    rw [if_neg (by simp [hcond])]
    simp only [upload_loop]
    simp
  · intro cs fuel hcs hcontra
    simp only [upload_with_chunk_size, get_progress] at hcontra
    split at hcontra
    · rename_i e heq
      simp only at hcontra
      injection hcontra with h1
      injection h1 with h2
      exact progress_of_response_no_file_read _ (by rw [heq, h2])
    · rename_i p heq
      split at hcontra
      · simp at hcontra
      · exact upload_loop_no_file_read c handler url file cs (by omega) fuel
          p.bytes_uploaded p.bytes_uploaded hcontra
  · intro cs pos prog fuel hcs hpos
    obtain ⟨rest, h⟩ := upload_loop_trace_cons c handler url file cs pos prog fuel (by omega)
    rw [h]
    simp only [List.head?_cons, chunk_request, inner_loop_min]
    rw [show min cs (file.length - pos) = 0 by omega]
    rw [List.take_zero]

/-- C10 witness: chunk size 0 over an empty file returns `FileReadError`. -/
theorem file_read_guard_checks_buffer_witness :
    (upload_with_chunk_size ⟨false⟩ (fault_free_handler 0) "u" [] 0 1).1
      = some (Except.error Error.FileReadError) :=
  (file_read_guard_checks_buffer ⟨false⟩ (fault_free_handler 0) "u" []).1
    { bytes_uploaded := 0, total_size := none } 0 (by rfl) (by rfl)
